import Mathlib

/-!
Verification development for the capital-laughs ticket-sales analytics
repository.  Each definition is a shallow embedding of a function from the
Python sources (`src/basic_analysis.py`, `src/show_insights.py`,
`src/show_level_analysis.py`, `src/advanced_time_series.py`,
`src/dashboard.py`); the theorems settle the specification claims about
those functions.
-/

namespace CapitalLaughs

/-! ## Generic counting helper

Models the `collections.Counter` / `defaultdict(int)` tallies and the
`Series.value_counts()` / plain-column `groupby(...).count()` outputs used
throughout `basic_analysis.py` and the pandas modules: each distinct key is
paired with its number of occurrences.  (Entry order is immaterial for every
claim below.) -/

def counter {α : Type} [DecidableEq α] (l : List α) : List (α × ℕ) :=
  l.dedup.map (fun x => (x, l.countP (fun y => y = x)))

theorem counter_mem {α : Type} [DecidableEq α] {l : List α} {x : α} {c : ℕ} :
    (x, c) ∈ counter l ↔ x ∈ l ∧ c = l.countP (fun y => y = x) := by
  constructor
  · intro h
    rcases List.mem_map.mp h with ⟨y, hy, hEq⟩
    cases hEq
    exact ⟨List.mem_dedup.mp hy, rfl⟩
  · rintro ⟨hx, rfl⟩
    exact List.mem_map.mpr ⟨x, List.mem_dedup.mpr hx, rfl⟩

/-! ## Strings

Python strings are modelled as lists of characters, so that lowercasing and
substring tests stay structurally computable.  `lowerStr` models Python's
`str.lower()` / pandas `.str.lower()` (per-character lowercasing). -/

abbrev Str := List Char

def lowerStr (s : Str) : Str := s.map Char.toLower

/-! ## C1: booking-window bucketing

`show_insights.py` lines 234-236 and `show_level_analysis.py` lines 221-223
(and `dashboard.py` lines 213-215) bucket `days_before_event` with

  `pd.cut(..., bins=[-1, 0, 1, 3, 7, 14, 30, float('inf')], labels=[...])`.

`pd.cut` with `right=True` (the default) assigns a value `d` to the half-open
interval `(lo, hi]` bounded by consecutive bin edges; a value at or below the
lowest edge `-1` falls outside every bin and becomes missing (NaN). -/

inductive Bucket : Type
  | sameDay
  | oneDay
  | twoThreeDays
  | fourSevenDays
  | oneTwoWeeks
  | twoFourWeeks
  | onePlusMonth
  deriving DecidableEq, Fintype

/-- The seven bucket labels in the order the `labels=[...]` argument lists
them (which is also the categorical order pandas uses). -/
def allBuckets : List Bucket :=
  [Bucket.sameDay, Bucket.oneDay, Bucket.twoThreeDays, Bucket.fourSevenDays,
   Bucket.oneTwoWeeks, Bucket.twoFourWeeks, Bucket.onePlusMonth]

/-- Exclusive lower bin edge of each bucket, from `bins=[-1,0,1,3,7,14,30,inf]`. -/
def bucketLo : Bucket → ℤ
  | Bucket.sameDay => -1
  | Bucket.oneDay => 0
  | Bucket.twoThreeDays => 1
  | Bucket.fourSevenDays => 3
  | Bucket.oneTwoWeeks => 7
  | Bucket.twoFourWeeks => 14
  | Bucket.onePlusMonth => 30

/-- Inclusive upper bin edge of each bucket; `none` is `float('inf')`. -/
def bucketHi : Bucket → Option ℤ
  | Bucket.sameDay => some 0
  | Bucket.oneDay => some 1
  | Bucket.twoThreeDays => some 3
  | Bucket.fourSevenDays => some 7
  | Bucket.oneTwoWeeks => some 14
  | Bucket.twoFourWeeks => some 30
  | Bucket.onePlusMonth => none

/-- Membership of an integer `days_before_event` value in one `pd.cut` bin:
`lo < d` and `d ≤ hi` (no upper test for the infinite last bin). -/
def memBucket (b : Bucket) (d : ℤ) : Bool :=
  decide (bucketLo b < d) &&
    (match bucketHi b with
     | none => true
     | some hi => decide (d ≤ hi))

/-- The bucket `pd.cut` assigns to an integer `days_before_event` value:
the (unique) bin containing it, or `none` (NaN) when no bin does. -/
def bookingBucket (d : ℤ) : Option Bucket :=
  allBuckets.find? (fun b => memBucket b d)

theorem memBucket_unique (d : ℤ) (b₁ b₂ : Bucket)
    (h₁ : memBucket b₁ d = true) (h₂ : memBucket b₂ d = true) : b₁ = b₂ := by
  cases b₁ <;> cases b₂ <;>
    first
      | rfl
      | (exfalso
         simp only [memBucket, bucketLo, bucketHi, Bool.and_eq_true,
           decide_eq_true_eq, and_true] at h₁ h₂
         omega)

theorem mem_allBuckets (b : Bucket) : b ∈ allBuckets := by
  cases b <;> simp [allBuckets]

/-- C1 (counterexample): the claim asserts that every non-missing integer
value of `days_before_event`, negative values included, lands in exactly one
booking-window bucket.  The value `-1` (a negative day gap the data model
permits) is assigned no bucket at all: `pd.cut` maps it to NaN because it
does not exceed the lowest bin edge `-1`. -/
theorem bookingBucket_neg_one_unbucketed :
    bookingBucket (-1) = none ∧ ∀ b : Bucket, memBucket b (-1) = false := by
  decide

/-- C1 (amended): every non-negative integer `days_before_event` value falls
in exactly one of the seven buckets, every negative value falls in no bucket
(`pd.cut` yields NaN there), and the bucketing function agrees with bin
membership. -/
theorem bookingBucket_partition (d : ℤ) :
    (0 ≤ d → ∃! b : Bucket, memBucket b d = true) ∧
    (d < 0 → bookingBucket d = none) ∧
    (∀ b : Bucket, bookingBucket d = some b ↔ memBucket b d = true) := by
  refine ⟨?_, ?_, ?_⟩
  · intro hd
    have exists_mem : ∃ b : Bucket, memBucket b d = true := by
      by_cases h0 : d ≤ 0
      · exact ⟨Bucket.sameDay, by
          simp only [memBucket, bucketLo, bucketHi, Bool.and_eq_true,
            decide_eq_true_eq, and_true]
          omega⟩
      · by_cases h1 : d ≤ 1
        · exact ⟨Bucket.oneDay, by
            simp only [memBucket, bucketLo, bucketHi, Bool.and_eq_true,
              decide_eq_true_eq, and_true]
            omega⟩
        · by_cases h3 : d ≤ 3
          · exact ⟨Bucket.twoThreeDays, by
              simp only [memBucket, bucketLo, bucketHi, Bool.and_eq_true,
                decide_eq_true_eq, and_true]
              omega⟩
          · by_cases h7 : d ≤ 7
            · exact ⟨Bucket.fourSevenDays, by
                simp only [memBucket, bucketLo, bucketHi, Bool.and_eq_true,
                  decide_eq_true_eq, and_true]
                omega⟩
            · by_cases h14 : d ≤ 14
              · exact ⟨Bucket.oneTwoWeeks, by
                  simp only [memBucket, bucketLo, bucketHi, Bool.and_eq_true,
                    decide_eq_true_eq, and_true]
                  omega⟩
              · by_cases h30 : d ≤ 30
                · exact ⟨Bucket.twoFourWeeks, by
                    simp only [memBucket, bucketLo, bucketHi, Bool.and_eq_true,
                      decide_eq_true_eq, and_true]
                    omega⟩
                · exact ⟨Bucket.onePlusMonth, by
                    simp only [memBucket, bucketLo, bucketHi, Bool.and_eq_true,
                      decide_eq_true_eq, and_true]
                    omega⟩
    rcases exists_mem with ⟨b, hb⟩
    exact ⟨b, hb, fun y hy => memBucket_unique d y b hy hb⟩
  · intro hd
    apply List.find?_eq_none.mpr
    intro b _ hb
    cases b <;>
      (simp only [memBucket, bucketLo, bucketHi, Bool.and_eq_true,
         decide_eq_true_eq, and_true] at hb
       omega)
  · intro b
    constructor
    · intro h
      unfold bookingBucket at h
      exact List.find?_some (p := fun x => memBucket x d) h
    · intro hmem
      cases hfind : bookingBucket d with
      | none =>
        exfalso
        unfold bookingBucket at hfind
        have hall := List.find?_eq_none.mp hfind b (mem_allBuckets b)
        simp only [hmem, not_true_eq_false] at hall
      | some b' =>
        have hfind' := hfind
        unfold bookingBucket at hfind'
        have hb' : memBucket b' d = true :=
          List.find?_some (p := fun x => memBucket x d) hfind'
        exact congrArg some (memBucket_unique d b' b hb' hmem)

/-- C1 (witness): at the concrete value 3, exactly one bucket matches, and at
the concrete negative value -2 no bucket is assigned. -/
theorem bookingBucket_partition_witness :
    (∃! b : Bucket, memBucket b 3 = true) ∧ bookingBucket (-2) = none :=
  ⟨(bookingBucket_partition 3).1 (by decide),
   (bookingBucket_partition (-2)).2.1 (by decide)⟩

/-! ## C2: repeat-customer threshold

`show_insights.py` line 156 (`repeat_customer_case_studies`),
`show_level_analysis.py` line 186 and `advanced_time_series.py` line 212
filter customer aggregates with `total_orders >= 3`.  `basic_analysis.py`
lines 80-93 (`analyze_data`) instead tally `customer_orders` per lowercased
non-empty email and count a customer as repeat when `count > 1`. -/

/-- The per-customer key list of `basic_analysis.analyze_data` lines 83-86:
`email = row.get('Buyer email', '').lower()`, keeping only truthy (non-empty)
emails. -/
def basic_customer_list (emails : List Str) : List Str :=
  (emails.map lowerStr).filter (fun e => e ≠ [])

/-- The `customer_orders` tally of `basic_analysis.analyze_data`. -/
def basic_customer_orders (emails : List Str) : List (Str × ℕ) :=
  counter (basic_customer_list emails)

/-- `basic_analysis.analyze_data` line 92: the number of customers the
repeat-customer rate counts as repeat, namely those with `count > 1`. -/
def basic_repeat_customers (emails : List Str) : ℕ :=
  (basic_customer_orders emails).countP (fun p => 1 < p.2)

/-- The `groupby('customer_id')` order counts of
`show_insights.repeat_customer_case_studies` (line 141) and
`advanced_time_series.create_customer_lifecycle_gantt` (line 202): pandas
lowercases each present email (`.str.lower()` keeps NaN as NaN) and `groupby`
drops the NaN keys. -/
def insights_customer_orders (emails : List (Option Str)) : List (Str × ℕ) :=
  counter (emails.filterMap (fun e => e.map lowerStr))

/-- The repeat-customer rows kept by the case-study and lifecycle views:
`customer_analysis[customer_analysis['total_orders'] >= 3]`. -/
def insights_repeat_customers (emails : List (Option Str)) : List (Str × ℕ) :=
  (insights_customer_orders emails).filter (fun p => 3 ≤ p.2)

/-- C2 (counterexample): a customer with exactly 2 orders — fewer than 3 —
is excluded from the case-study/lifecycle repeat views, yet
`basic_analysis`'s repeat-customer rate counts it as a repeat customer, so
the 3-order threshold does not govern every repeat-customer view. -/
theorem repeat_threshold_counterexample :
    basic_customer_orders ["a@x.com".data, "a@x.com".data] = [("a@x.com".data, 2)] ∧
    basic_repeat_customers ["a@x.com".data, "a@x.com".data] = 1 ∧
    insights_repeat_customers [some "a@x.com".data, some "a@x.com".data] = [] := by
  decide

/-- C2 (amended): the case-study and lifecycle repeat views keep exactly the
customers with at least 3 total orders, while `basic_analysis`'s
repeat-customer rate counts exactly the customers with more than 1 total
order. -/
theorem repeat_threshold_amended (emails : List (Option Str))
    (basics : List Str) (k : Str) (c : ℕ) :
    ((k, c) ∈ insights_repeat_customers emails ↔
      (k, c) ∈ insights_customer_orders emails ∧ 3 ≤ c) ∧
    basic_repeat_customers basics =
      ((basic_customer_orders basics).filter (fun p => 1 < p.2)).length := by
  constructor
  · simp [insights_repeat_customers, List.mem_filter]
  · rw [basic_repeat_customers, List.countP_eq_length_filter]

/-- C2 (witness): a customer with 3 orders (one spelled with an uppercase
letter, exercising the lowercasing) appears in the repeat view. -/
theorem repeat_threshold_amended_witness :
    ("a@x.com".data, 3) ∈ insights_repeat_customers
      [some "a@x.com".data, some "A@x.com".data, some "a@x.com".data] :=
  (repeat_threshold_amended
      [some "a@x.com".data, some "A@x.com".data, some "a@x.com".data]
      [] "a@x.com".data 3).1.mpr
    ⟨by decide, by decide⟩

/-! ## C3: no zero-filled rows in grouped outputs

The booking-window summaries of `show_insights.py` lines 238-241 and
`show_level_analysis.py` lines 225-229 call `groupby(booking_windows)` on a
categorical key with the pandas default `observed=False`, which emits one
output row per category label — including labels observed in no row (count
0, empty-group sum 0).  `dashboard.py` line 217 passes `observed=True`, which
keeps only categories that some row falls into.  Grouping on plain columns
(`day_of_week`, `Payment type`, `customer_id`, ...) only ever produces
groups with at least one row, as does `collections.Counter`. -/

structure BRow where
  days : Option ℤ
  gross : Option ℚ
  deriving DecidableEq

/-- The booking-window bucket of one record: missing when `days_before_event`
is missing or falls outside every bin. -/
def bucketOfRow (r : BRow) : Option Bucket := r.days.bind bookingBucket

/-- The rows `groupby` places in bucket `b` (NaN keys are dropped). -/
def groupRows (b : Bucket) (rows : List BRow) : List BRow :=
  rows.filter (fun r => bucketOfRow r = some b)

/-- Pandas `'Gross sales': 'sum'` aggregation: missing entries are skipped
and an empty group sums to 0. -/
def sumGross (rows : List BRow) : ℚ := (rows.filterMap (fun r => r.gross)).sum

/-- The `booking_analysis` table of `show_insights.py` lines 238-241 /
`show_level_analysis.py` lines 225-229: `groupby` over the categorical
booking-window key with the default `observed=False`, one output row per
bucket label with its `Order ID` count and `Gross sales` sum. -/
def booking_analysis_default (rows : List BRow) : List (Bucket × ℕ × ℚ) :=
  allBuckets.map (fun b =>
    (b, (groupRows b rows).length, sumGross (groupRows b rows)))

/-- The `booking_analysis` table of `dashboard.py` lines 217-220, whose
`groupby(..., observed=True)` keeps only the bucket labels some row falls
into. -/
def booking_analysis_observed (rows : List BRow) : List (Bucket × ℕ × ℚ) :=
  (booking_analysis_default rows).filter (fun e => e.2.1 ≠ 0)

/-- C3 (counterexample): with a single same-day order, the `show_insights` /
`show_level_analysis` booking-window summary still contains a row for the
unobserved '1 Day' bucket with order count 0 — a zero-filled row the claim
says never appears. -/
theorem zero_filled_row_counterexample :
    (Bucket.oneDay, 0, (0 : ℚ)) ∈
      booking_analysis_default [{ days := some 0, gross := none }] ∧
    (Bucket.oneDay, 0, (0 : ℚ)) ∉
      booking_analysis_observed [{ days := some 0, gross := none }] := by
  decide

/-- C3 (amended): the dashboard's booking-window summary (`observed=True`)
contains no zero-count rows, and `Counter`-style groupings on plain keys
always report positive counts; but the `show_insights` /
`show_level_analysis` booking-window summaries (default `observed=False`)
contain a zero-filled row for every bucket no row falls into. -/
theorem booking_no_zero_rows_amended (rows : List BRow) :
    (∀ e ∈ booking_analysis_observed rows, 0 < e.2.1) ∧
    (∀ b : Bucket, (∀ r ∈ rows, bucketOfRow r ≠ some b) →
      (b, 0, (0 : ℚ)) ∈ booking_analysis_default rows) ∧
    (∀ (l : List Str) (k : Str) (c : ℕ), (k, c) ∈ counter l → 0 < c) := by
  refine ⟨?_, ?_, ?_⟩
  · intro e he
    have := List.of_mem_filter he
    simp only [ne_eq, decide_not, Bool.not_eq_true', decide_eq_false_iff_not] at this
    exact Nat.pos_of_ne_zero this
  · intro b hb
    have hempty : groupRows b rows = [] := by
      apply List.filter_eq_nil_iff.mpr
      intro r hr
      simp only [decide_eq_true_eq]
      exact hb r hr
    apply List.mem_map.mpr
    exact ⟨b, mem_allBuckets b, by rw [hempty]; rfl⟩
  · intro l k c hkc
    rcases counter_mem.mp hkc with ⟨hk, rfl⟩
    exact List.countP_pos_iff.mpr ⟨k, hk, by simp⟩

/-- C3 (witness): on a single same-day order, the observed-only table's row
for the 'Same Day' bucket has positive count, and the unobserved '2-3 Days'
bucket contributes a zero row to the default table. -/
theorem booking_no_zero_rows_amended_witness :
    0 < (Bucket.sameDay, 1, (0 : ℚ)).2.1 ∧
    (Bucket.twoThreeDays, 0, (0 : ℚ)) ∈
      booking_analysis_default [{ days := some 0, gross := none }] :=
  ⟨(booking_no_zero_rows_amended [{ days := some 0, gross := none }]).1
      (Bucket.sameDay, 1, (0 : ℚ)) (by decide),
   (booking_no_zero_rows_amended [{ days := some 0, gross := none }]).2.1
      Bucket.twoThreeDays (by decide)⟩

/-! ## C4: anomaly detection on a constant sequence

`advanced_time_series.py` lines 75-78:

    def detect_anomalies(self, data, threshold=2):
        z_scores = np.abs(zscore(data.dropna()))
        return z_scores > threshold

`scipy.stats.zscore` (default `ddof=0`) standardizes with the population
standard deviation.  On a zero-variance sequence the division is 0/0, which
IEEE arithmetic turns into NaN (no exception is raised; numpy only emits a
suppressed warning), and `NaN > threshold` is `False` for every threshold.
To stay in exact arithmetic the squared z-score is modelled, with `none`
playing NaN; the comparison `|z| > t` is `t < 0 ∨ t² < z²`. -/

/-- `data.dropna()`: the non-missing entries in order. -/
def dropna (data : List (Option ℚ)) : List ℚ := data.filterMap id

/-- Population mean of a series (`np.mean`). -/
def seriesMean (l : List ℚ) : ℚ := l.sum / l.length

/-- Population variance of a series (the square of the `ddof=0` standard
deviation `zscore` divides by). -/
def popVariance (l : List ℚ) : ℚ :=
  ((l.map (fun x => (x - seriesMean l) ^ 2)).sum) / l.length

/-- Squared z-score of `x` within series `l`; `none` is the NaN produced by
the 0/0 division when the variance is zero. -/
def zscoreSq (l : List ℚ) (x : ℚ) : Option ℚ :=
  if popVariance l = 0 then none
  else some ((x - seriesMean l) ^ 2 / popVariance l)

/-- The comparison `|z| > threshold` on the squared z-score, with IEEE NaN
semantics: a NaN z-score compares `False` against every threshold. -/
def absZGt : Option ℚ → ℚ → Bool
  | none, _ => false
  | some zsq, t => if t < 0 then true else decide (t ^ 2 < zsq)

/-- `AdvancedTimeSeriesAnalysis.detect_anomalies`: the boolean mask over the
non-missing entries, flagging those whose absolute z-score exceeds the
threshold. -/
def detect_anomalies (data : List (Option ℚ)) (threshold : ℚ) : List Bool :=
  (dropna data).map (fun x => absZGt (zscoreSq (dropna data) x) threshold)

theorem dropna_replicate (n : ℕ) (c : ℚ) :
    dropna (List.replicate n (some c)) = List.replicate n c := by
  induction n with
  | zero => rfl
  | succ k ih =>
    simp only [dropna, List.replicate_succ, List.filterMap_cons] at ih ⊢
    simp [ih]

theorem popVariance_replicate (n : ℕ) (c : ℚ) :
    popVariance (List.replicate n c) = 0 := by
  cases n with
  | zero => simp [popVariance]
  | succ k =>
    have hmean : seriesMean (List.replicate (k + 1) c) = c := by
      rw [seriesMean, List.sum_replicate, List.length_replicate, nsmul_eq_mul]
      exact mul_div_cancel_left₀ c (by positivity)
    simp [popVariance, hmean]

/-- C4: on every constant (zero-variance) sequence and for every threshold,
`detect_anomalies` returns the all-false mask; the zero-variance division
produces NaN z-scores rather than raising, and NaN never exceeds the
threshold. -/
theorem detect_anomalies_constant (n : ℕ) (c t : ℚ) :
    detect_anomalies (List.replicate n (some c)) t = List.replicate n false := by
  unfold detect_anomalies
  rw [dropna_replicate, List.map_replicate]
  have : zscoreSq (List.replicate n c) c = none := by
    simp [zscoreSq, popVariance_replicate]
  rw [this]
  rfl

/-! ## C6: guarded rate computations on show groups

`show_insights.py` lines 75-76 and `show_level_analysis.py` lines 117-127
compute per-show rates with an explicit guard:

    'same_day_rate': same_day_purchases / total_orders if total_orders > 0 else 0,
    'free_rate': free_tickets / total_orders if total_orders > 0 else 0,

where `total_orders = len(show_data)`, `same_day_purchases` counts rows with
`days_before_event == 0` (NaN compares unequal) and `free_tickets` counts
rows with `Payment type == 'Free'`. -/

structure ShowRow where
  days_before_event : Option ℤ
  payment : Str
  deriving DecidableEq

/-- `len(show_data[show_data['days_before_event'] == 0])`. -/
def same_day_purchases (g : List ShowRow) : ℕ :=
  (g.filter (fun r => r.days_before_event = some 0)).length

/-- `len(show_data[show_data['Payment type'] == 'Free'])`. -/
def free_tickets (g : List ShowRow) : ℕ :=
  (g.filter (fun r => r.payment = "Free".data)).length

/-- The guarded same-day-purchase rate of a show group. -/
def same_day_rate (g : List ShowRow) : ℚ :=
  if 0 < g.length then (same_day_purchases g : ℚ) / (g.length : ℚ) else 0

/-- The guarded free-ticket rate of a show group. -/
def free_rate (g : List ShowRow) : ℚ :=
  if 0 < g.length then (free_tickets g : ℚ) / (g.length : ℚ) else 0

/-- C6: on a show group with order count zero, the guarded divisions yield 0
for both the same-day-purchase rate and the free-ticket rate instead of
raising a division error. -/
theorem rates_zero_on_empty_group (g : List ShowRow) (h : g.length = 0) :
    same_day_rate g = 0 ∧ free_rate g = 0 := by
  constructor <;> simp [same_day_rate, free_rate, h]

/-- C6 (witness): the empty group has both rates equal to 0. -/
theorem rates_zero_on_empty_group_witness :
    same_day_rate [] = 0 ∧ free_rate [] = 0 :=
  rates_zero_on_empty_group [] rfl

/-! ## C5: coercion of numeric currency columns

Two code paths read the currency / quantity cells:

* `show_insights.prepare_data` lines 42-45 (same in
  `show_level_analysis.prepare_data` lines 61-65):
  `pd.to_numeric(col, errors='coerce')` — non-parseable cells become NaN and
  nothing raises; the later `'Gross sales'` sums skip NaN.
* `basic_analysis.analyze_data` lines 39-40:
  `sum(int(row.get('Ticket quantity', 0)) for row in data)` and
  `sum(float(row.get('Gross sales', 0)) for row in data if row.get('Gross sales'))`
  — `float`/`int` raise `ValueError` on a non-parseable string, and `int('')`
  raises on an empty-but-present cell.

A CSV cell is modelled by whether it parses: `num q` a cell parseable as the
relevant number, `str s` a non-empty cell that does not parse, `empty` an
empty cell (falsy, and `int('')`/`float('')` raise), `missing` an absent
column (`row.get` then yields the default `0`, which is falsy). -/

inductive Cell : Type
  | num (q : ℚ)
  | str (s : Str)
  | empty
  | missing
  deriving DecidableEq

/-- `pd.to_numeric(c, errors='coerce')`: parseable cells keep their value,
everything else becomes the NaN missing marker. -/
def to_numeric_coerce : Cell → Option ℚ
  | Cell.num q => some q
  | Cell.str _ => none
  | Cell.empty => none
  | Cell.missing => none

/-- The pandas `'Gross sales'` total over coerced cells: NaN entries are
skipped by `sum`, so the total is always defined. -/
def insights_total_revenue (cells : List Cell) : ℚ :=
  (cells.filterMap to_numeric_coerce).sum

/-- `basic_analysis.analyze_data` line 40.  `Except.error ()` is the
`ValueError` that `float(...)` raises on a non-parseable string; falsy cells
(empty or missing) are skipped by the `if row.get('Gross sales')` guard. -/
def basic_total_revenue : List Cell → Except Unit ℚ
  | [] => Except.ok 0
  | Cell.missing :: rest => basic_total_revenue rest
  | Cell.empty :: rest => basic_total_revenue rest
  | Cell.num q :: rest => (basic_total_revenue rest).map (fun s => q + s)
  | Cell.str _ :: _ => Except.error ()

/-- `basic_analysis.analyze_data` line 39.  There is no truthiness guard:
a missing column defaults to the integer 0, while `int('')` on an
empty-but-present cell raises, as does `int` of a non-parseable string. -/
def basic_total_tickets : List Cell → Except Unit ℚ
  | [] => Except.ok 0
  | Cell.missing :: rest => basic_total_tickets rest
  | Cell.empty :: _ => Except.error ()
  | Cell.num q :: rest => (basic_total_tickets rest).map (fun s => q + s)
  | Cell.str _ :: _ => Except.error ()

/-- C5 (counterexample): a non-parseable `Gross sales` cell makes
`basic_analysis`'s total-revenue aggregate raise `ValueError`, and an empty
`Ticket quantity` cell makes its total-tickets aggregate raise, while the
pandas path coerces the same cell to missing and stays defined — so the
claim that the totals never raise fails on `basic_analysis`. -/
theorem basic_totals_raise_counterexample :
    basic_total_revenue [Cell.str "abc".data] = Except.error () ∧
    basic_total_tickets [Cell.empty] = Except.error () ∧
    insights_total_revenue [Cell.str "abc".data] = 0 ∧
    to_numeric_coerce (Cell.str "abc".data) = none :=
  ⟨rfl, rfl, rfl, rfl⟩

/-- C5 (amended): the pandas preparation coerces every non-parseable cell to
the missing marker and its revenue total is always defined; the
`basic_analysis` totals are defined exactly when no cell fails to parse
(and, for tickets, no present cell is empty), and raise otherwise. -/
theorem numeric_coercion_amended (cells : List Cell) :
    (∀ s : Str, to_numeric_coerce (Cell.str s) = none) ∧
    insights_total_revenue cells = (cells.filterMap to_numeric_coerce).sum ∧
    ((∃ q, basic_total_revenue cells = Except.ok q) ↔
      ∀ s : Str, Cell.str s ∉ cells) ∧
    ((∃ q, basic_total_tickets cells = Except.ok q) ↔
      ((∀ s : Str, Cell.str s ∉ cells) ∧ Cell.empty ∉ cells)) := by
  refine ⟨fun s => rfl, rfl, ?_, ?_⟩
  · induction cells with
    | nil => simp [basic_total_revenue]
    | cons c rest ih =>
      cases c with
      | num q =>
        simp only [basic_total_revenue, List.mem_cons]
        constructor
        · rintro ⟨v, hv⟩ s hs
          have hok : ∃ w, basic_total_revenue rest = Except.ok w := by
            cases hrest : basic_total_revenue rest with
            | error e => rw [hrest] at hv; exact Except.noConfusion hv
            | ok w => exact ⟨w, rfl⟩
          rcases hs with hs | hs
          · exact Cell.noConfusion hs
          · exact ih.mp hok s hs
        · intro h
          rcases ih.mpr (fun s hs => h s (Or.inr hs)) with ⟨v, hv⟩
          exact ⟨q + v, by rw [hv]; rfl⟩
      | str s =>
        simp only [basic_total_revenue, List.mem_cons]
        constructor
        · rintro ⟨v, hv⟩
          exact Except.noConfusion hv
        · intro h
          exact absurd (Or.inl rfl) (h s)
      | empty =>
        simp only [basic_total_revenue, List.mem_cons]
        constructor
        · intro h s hs
          rcases hs with hs | hs
          · exact Cell.noConfusion hs
          · exact ih.mp h s hs
        · intro h
          exact ih.mpr (fun s hs => h s (Or.inr hs))
      | missing =>
        simp only [basic_total_revenue, List.mem_cons]
        constructor
        · intro h s hs
          rcases hs with hs | hs
          · exact Cell.noConfusion hs
          · exact ih.mp h s hs
        · intro h
          exact ih.mpr (fun s hs => h s (Or.inr hs))
  · induction cells with
    | nil => simp [basic_total_tickets]
    | cons c rest ih =>
      cases c with
      | num q =>
        simp only [basic_total_tickets, List.mem_cons]
        constructor
        · rintro ⟨v, hv⟩
          have hok : ∃ w, basic_total_tickets rest = Except.ok w := by
            cases hrest : basic_total_tickets rest with
            | error e => rw [hrest] at hv; exact Except.noConfusion hv
            | ok w => exact ⟨w, rfl⟩
          rcases ih.mp hok with ⟨hstr, hemp⟩
          refine ⟨fun s hs => ?_, fun hs => ?_⟩
          · rcases hs with hs | hs
            · exact Cell.noConfusion hs
            · exact hstr s hs
          · rcases hs with hs | hs
            · exact Cell.noConfusion hs
            · exact hemp hs
        · rintro ⟨hstr, hemp⟩
          rcases ih.mpr ⟨fun s hs => hstr s (Or.inr hs),
            fun hs => hemp (Or.inr hs)⟩ with ⟨v, hv⟩
          exact ⟨q + v, by rw [hv]; rfl⟩
      | str s =>
        simp only [basic_total_tickets, List.mem_cons]
        constructor
        · rintro ⟨v, hv⟩
          exact Except.noConfusion hv
        · rintro ⟨hstr, _⟩
          exact absurd (Or.inl rfl) (hstr s)
      | empty =>
        simp only [basic_total_tickets, List.mem_cons]
        constructor
        · rintro ⟨v, hv⟩
          exact Except.noConfusion hv
        · rintro ⟨_, hemp⟩
          exact absurd (Or.inl trivial) hemp
      | missing =>
        simp only [basic_total_tickets, List.mem_cons]
        constructor
        · rintro ⟨v, hv⟩
          rcases ih.mp ⟨v, hv⟩ with ⟨hstr, hemp⟩
          refine ⟨fun s hs => ?_, fun hs => ?_⟩
          · rcases hs with hs | hs
            · exact Cell.noConfusion hs
            · exact hstr s hs
          · rcases hs with hs | hs
            · exact Cell.noConfusion hs
            · exact hemp hs
        · rintro ⟨hstr, hemp⟩
          exact ih.mpr ⟨fun s hs => hstr s (Or.inr hs),
            fun hs => hemp (Or.inr hs)⟩

/-- C5 (witness): on a record set with one parseable cell and one missing
cell, both `basic_analysis` totals are defined. -/
theorem numeric_coercion_amended_witness :
    (∃ q, basic_total_revenue [Cell.num 3, Cell.missing] = Except.ok q) ∧
    (∃ q, basic_total_tickets [Cell.num 3, Cell.missing] = Except.ok q) :=
  ⟨(numeric_coercion_amended [Cell.num 3, Cell.missing]).2.2.1.mpr
      (by intro s hs; simp at hs),
   (numeric_coercion_amended [Cell.num 3, Cell.missing]).2.2.2.mpr
      ⟨by intro s hs; simp at hs, by simp⟩⟩

/-! ## C8: customer_id for a missing buyer email

`show_insights.prepare_data` line 48 (same in `show_level_analysis` line 68):
`self.df['customer_id'] = self.df['Buyer email'].str.lower()` — pandas
`.str.lower()` maps a missing (NaN) email to NaN, not to the empty string,
and every later `groupby('customer_id')` drops NaN keys (`dropna=True` is
the default), so such records vanish from customer-level groupings.

`basic_analysis.analyze_data` lines 83-86 compute
`email = row.get('Buyer email', '').lower()` — here a missing email does
become the empty string — but the `if email:` guard then skips it, so the
empty-string bucket never reaches `customer_orders` (nor, line 41, the
unique-customer count). -/

/-- Pandas `.str.lower()` on one `Buyer email` cell: NaN stays NaN. -/
def str_lower_pandas : Option Str → Option Str
  | none => none
  | some s => some (lowerStr s)

/-- C8 (counterexample): a record with a missing buyer email gets customer_id
NaN (not the empty string) in the pandas paths, and is dropped from the
customer grouping there; in `basic_analysis` it gets the empty string but is
likewise excluded from the customer tally — no degenerate "no customer"
bucket exists in either grouping. -/
theorem missing_email_counterexample :
    str_lower_pandas none = none ∧
    str_lower_pandas none ≠ some ([] : Str) ∧
    insights_customer_orders [none] = [] ∧
    basic_customer_orders [([] : Str)] = [] := by
  decide

/-- C8 (amended): a missing buyer email yields customer_id NaN in the pandas
paths and the empty string in `basic_analysis`; in both paths such records
are excluded from customer-level groupings — every pandas group key comes
from a present email, and no `basic_analysis` group key is the empty
string. -/
theorem missing_email_amended (emails : List (Option Str)) (basics : List Str) :
    str_lower_pandas none = none ∧
    (∀ k c, (k, c) ∈ insights_customer_orders emails →
      ∃ e, some e ∈ emails ∧ k = lowerStr e) ∧
    (∀ k c, (k, c) ∈ basic_customer_orders basics → k ≠ []) := by
  refine ⟨rfl, ?_, ?_⟩
  · intro k c hkc
    have hk : k ∈ emails.filterMap (fun e => e.map lowerStr) :=
      (counter_mem.mp hkc).1
    rcases List.mem_filterMap.mp hk with ⟨e, he, hmap⟩
    cases e with
    | none => exact Option.noConfusion hmap
    | some s => exact ⟨s, he, (Option.some.inj hmap).symm⟩
  · intro k c hkc
    have hk : k ∈ basic_customer_list basics := (counter_mem.mp hkc).1
    have := List.of_mem_filter hk
    simpa using this

/-- C8 (witness): a present email appears in the pandas customer grouping,
lowercased, and traceable to its source row. -/
theorem missing_email_amended_witness :
    ∃ e, some e ∈ [some "A@x.com".data] ∧ "a@x.com".data = lowerStr e :=
  (missing_email_amended [some "A@x.com".data] []).2.1 "a@x.com".data 1
    (by decide)

/-! ## C9: JSON snapshot round trip

`basic_analysis.save_results_json` lines 159-163 writes the `results` dict
with `json.dump(results, f, indent=2, default=str)`.  The `results` built by
`analyze_data` is one level of string-named entries whose values are scalars
(int, float, str, None) or flat tables; two of those tables are keyed by
Python ints — `hourly_distribution` (line 73, `Counter` of hours) and
`ticket_quantities` (line 109).  JSON object keys are strings, so
`json.dump` converts an int key to its decimal string, and `json.load`
returns string keys; scalar values themselves round trip exactly (Python
floats serialize via repr and re-load to the identical value). -/

inductive PyKey : Type
  | kInt (n : ℤ)
  | kStr (s : Str)
  deriving DecidableEq

inductive Leaf : Type
  | lInt (n : ℤ)
  | lFloat (q : ℚ)
  | lStr (s : Str)
  | lNone
  deriving DecidableEq

inductive Val : Type
  | scalar (x : Leaf)
  | table (entries : List (PyKey × Leaf))
  deriving DecidableEq

/-- The shape of the `results` dict of `analyze_data`. -/
abbrev Results := List (Str × Val)

/-- How `json.dump` renders a dict key: ints become their decimal string. -/
def keyDump : PyKey → Str
  | PyKey.kInt n => (toString n).data
  | PyKey.kStr s => s

/-- Writing one value with `json.dump` and reading it back with `json.load`:
table keys come back as strings, everything else is unchanged. -/
def dumpLoadVal : Val → Val
  | Val.scalar x => Val.scalar x
  | Val.table es =>
      Val.table (es.map (fun p => (PyKey.kStr (keyDump p.1), p.2)))

/-- Round trip of the whole snapshot: `json.load` of `json.dump(results)`. -/
def dump_load (r : Results) : Results :=
  r.map (fun p => (p.1, dumpLoadVal p.2))

/-- `results['hourly_distribution']` (line 73): a table keyed by the integer
purchase hours with their counts. -/
def hourly_distribution (hours : List ℤ) : Val :=
  Val.table ((counter hours).map (fun p => (PyKey.kInt p.1, Leaf.lInt p.2)))

/-- `results['ticket_quantities']` (line 109): a table keyed by the integer
ticket quantities with their counts. -/
def ticket_quantities (qtys : List ℤ) : Val :=
  Val.table ((counter qtys).map (fun p => (PyKey.kInt p.1, Leaf.lInt p.2)))

/-- The leaf values stored under one results entry, in order. -/
def valLeaves : Val → List Leaf
  | Val.scalar x => [x]
  | Val.table es => es.map Prod.snd

/-- Whether every table key of a value is already a string. -/
def allStrKeysVal : Val → Bool
  | Val.scalar _ => true
  | Val.table es =>
      es.all (fun p =>
        match p.1 with
        | PyKey.kStr _ => true
        | PyKey.kInt _ => false)

/-- Whether every table key of the snapshot is a string. -/
def allStrKeys (r : Results) : Bool := r.all (fun p => allStrKeysVal p.2)

/-- C9 (counterexample): a batch result set whose hourly distribution has the
single entry {14: 1} does not round trip bit-for-bit: the re-loaded snapshot
carries the string key "14" instead of the integer key 14. -/
theorem json_roundtrip_counterexample :
    dump_load [("hourly_distribution".data, hourly_distribution [14])] ≠
      [("hourly_distribution".data, hourly_distribution [14])] ∧
    dump_load [("ticket_quantities".data, ticket_quantities [2])] ≠
      [("ticket_quantities".data, ticket_quantities [2])] := by
  decide

theorem mapStrKeys_id (es : List (PyKey × Leaf))
    (h : ∀ p ∈ es, ∃ s, p.1 = PyKey.kStr s) :
    es.map (fun p => (PyKey.kStr (keyDump p.1), p.2)) = es := by
  induction es with
  | nil => rfl
  | cons p rest ih =>
    rcases h p (List.mem_cons_self p rest) with ⟨s, hs⟩
    simp only [List.map_cons, ih (fun q hq => h q (List.mem_cons_of_mem _ hq))]
    cases p with
    | mk k x =>
      simp only at hs
      rw [hs]
      rfl

theorem valLeaves_dumpLoadVal (v : Val) :
    valLeaves (dumpLoadVal v) = valLeaves v := by
  cases v with
  | scalar x => rfl
  | table es => simp [dumpLoadVal, valLeaves, List.map_map]

/-- C9 (amended): every scalar value and every string-keyed table of the
batch snapshot round trips unchanged, and even for integer-keyed tables the
stored values (counts) survive; what changes is exactly the keys — the round
trip replaces each integer key by its decimal string, so integer-keyed
tables such as the hourly distribution and ticket quantities are not
reproduced bit-for-bit. -/
theorem json_roundtrip_amended (r : Results) :
    (allStrKeys r = true → dump_load r = r) ∧
    (dump_load r).map (fun p => (p.1, valLeaves p.2)) =
      r.map (fun p => (p.1, valLeaves p.2)) := by
  constructor
  · intro h
    unfold dump_load
    have hall := List.all_eq_true.mp h
    have hmap : r.map (fun p => (p.1, dumpLoadVal p.2)) = r.map id := by
      apply List.map_congr_left
      intro p hp
      have hv := hall p hp
      cases p with
      | mk name v =>
        cases v with
        | scalar x => rfl
        | table es =>
          simp only [allStrKeysVal] at hv
          have hkeys : ∀ q ∈ es, ∃ s, q.1 = PyKey.kStr s := by
            intro q hq
            have hq2 := List.all_eq_true.mp hv q hq
            cases hq1 : q.1 with
            | kInt n => rw [hq1] at hq2; exact Bool.noConfusion hq2
            | kStr s => exact ⟨s, rfl⟩
          simp [dumpLoadVal, mapStrKeys_id es hkeys]
    rw [hmap, List.map_id]
  · unfold dump_load
    rw [List.map_map]
    apply List.map_congr_left
    intro p _
    simp [valLeaves_dumpLoadVal]

/-- C9 (witness): a snapshot whose tables are all string-keyed round trips
to itself. -/
theorem json_roundtrip_amended_witness :
    dump_load [("orders_by_day".data,
        Val.table [(PyKey.kStr "Monday".data, Leaf.lInt 2)])] =
      [("orders_by_day".data,
        Val.table [(PyKey.kStr "Monday".data, Leaf.lInt 2)])] :=
  (json_roundtrip_amended [("orders_by_day".data,
      Val.table [(PyKey.kStr "Monday".data, Leaf.lInt 2)])]).1 (by decide)

/-! ## C10: the "eda" exclusion marker — full path versus base filename

`show_insights.load_data` lines 15-19 (identically
`show_level_analysis.load_data` lines 23-27):

    csv_files = glob.glob(os.path.join(self.data_folder, '*.csv'))
    for file in csv_files:
        if file.endswith('.csv') and not 'eda' in file.lower():

`file` is the full path `folder + '/' + name`, so the 'eda' test sees the
directory part.  `basic_analysis.load_csv_data` line 16:

    csv_files = [f for f in os.listdir(data_folder)
                 if f.endswith('.csv') and 'eda' not in f.lower()]

tests the base filename only. -/

/-- Whether the first list is a prefix of the second (character match). -/
def beginsWith : Str → Str → Bool
  | [], _ => true
  | _ :: _, [] => false
  | p :: ps, c :: cs => p = c && beginsWith ps cs

/-- Python's `pat in s` substring test. -/
def containsSeq (pat : Str) : Str → Bool
  | [] => beginsWith pat []
  | c :: cs => beginsWith pat (c :: cs) || containsSeq pat cs

/-- Python's `s.endswith(pat)`. -/
def endsWithSeq (pat s : Str) : Bool := beginsWith pat.reverse s.reverse

def edaStr : Str := "eda".data

def csvExt : Str := ".csv".data

/-- The CSV files the pandas loaders keep: `glob('*.csv')` restricts to
names with the `.csv` extension, then the loop keeps `file` (the full path
`folder/name`) when it ends with `.csv` and its lowercased form does not
contain 'eda'. -/
def pandas_selected (folder : Str) (names : List Str) : List Str :=
  (names.filter (fun n => endsWithSeq csvExt n)).filter
    (fun n => endsWithSeq csvExt (folder ++ '/' :: n) &&
      !(containsSeq edaStr (lowerStr (folder ++ '/' :: n))))

/-- The CSV files `basic_analysis.load_csv_data` keeps: base filenames from
`os.listdir` ending in `.csv` whose lowercased form does not contain
'eda'. -/
def basic_selected (names : List Str) : List Str :=
  names.filter
    (fun n => endsWithSeq csvExt n && !(containsSeq edaStr (lowerStr n)))

theorem beginsWith_append (p l r : Str) (h : beginsWith p l = true) :
    beginsWith p (l ++ r) = true := by
  induction p generalizing l with
  | nil => rfl
  | cons a ps ih =>
    cases l with
    | nil => simp [beginsWith] at h
    | cons c cs =>
      simp only [List.cons_append, beginsWith, Bool.and_eq_true] at h ⊢
      exact ⟨h.1, ih cs h.2⟩

theorem containsSeq_nil_true (r : Str) : containsSeq [] r = true := by
  cases r with
  | nil => rfl
  | cons c cs => simp [containsSeq, beginsWith]

theorem containsSeq_append (p l r : Str) (h : containsSeq p l = true) :
    containsSeq p (l ++ r) = true := by
  induction l with
  | nil =>
    cases p with
    | nil => exact containsSeq_nil_true r
    | cons a ps => simp [containsSeq, beginsWith] at h
  | cons c cs ih =>
    simp only [containsSeq, Bool.or_eq_true] at h
    simp only [List.cons_append, containsSeq, Bool.or_eq_true]
    rcases h with h | h
    · exact Or.inl (beginsWith_append p (c :: cs) r h)
    · exact Or.inr (ih h)

/-- C10: when the data-folder path contains 'eda' (case-insensitively), the
pandas loaders select no CSV file at all, whatever the filenames are, while
`basic_analysis.load_csv_data` — testing only the base filename — still
keeps every `.csv` file whose own name is free of 'eda'. -/
theorem eda_folder_filter (folder : Str) (names : List Str)
    (h : containsSeq edaStr (lowerStr folder) = true) :
    pandas_selected folder names = [] ∧
    (∀ n ∈ names, endsWithSeq csvExt n = true →
      containsSeq edaStr (lowerStr n) = false → n ∈ basic_selected names) := by
  constructor
  · apply List.filter_eq_nil_iff.mpr
    intro n _
    have hcontains :
        containsSeq edaStr (lowerStr (folder ++ '/' :: n)) = true := by
      unfold lowerStr
      rw [List.map_append]
      exact containsSeq_append _ _ _ h
    simp [hcontains]
  · intro n hn hcsv heda
    apply List.mem_filter.mpr
    exact ⟨hn, by simp [hcsv, heda]⟩

/-- C10 (witness): with data folder 'eda_data', the pandas loaders keep
nothing, while the basic loader still keeps 'monday.csv'. -/
theorem eda_folder_filter_witness :
    pandas_selected "eda_data".data ["monday.csv".data] = [] ∧
    "monday.csv".data ∈ basic_selected ["monday.csv".data] :=
  ⟨(eda_folder_filter "eda_data".data ["monday.csv".data] (by decide)).1,
   (eda_folder_filter "eda_data".data ["monday.csv".data] (by decide)).2
     "monday.csv".data (by decide) (by decide) (by decide)⟩

/-! ## C7: polynomial (Savitzky-Golay) smoothing fallback

`advanced_time_series.apply_smoothing` lines 67-71:

    elif method == 'savgol':
        if len(data) > window:
            return pd.Series(signal.savgol_filter(data, window, 3), index=data.index)
        else:
            return data

The filter runs only when the sequence is strictly longer than the window;
at `window == len(data)` the raw sequence is returned even though the claim
promises the filtered sequence whenever the window does not exceed the
length. -/

structure Vec4 where
  a : ℚ
  b : ℚ
  c : ℚ
  d : ℚ

def det3 (a b c d e f g h i : ℚ) : ℚ :=
  a * (e * i - f * h) - b * (d * i - f * g) + c * (d * h - e * g)

def det4 (r0 r1 r2 r3 : Vec4) : ℚ :=
  r0.a * det3 r1.b r1.c r1.d r2.b r2.c r2.d r3.b r3.c r3.d -
    r0.b * det3 r1.a r1.c r1.d r2.a r2.c r2.d r3.a r3.c r3.d +
    r0.c * det3 r1.a r1.b r1.d r2.a r2.b r2.d r3.a r3.b r3.d -
    r0.d * det3 r1.a r1.b r1.c r2.a r2.b r2.c r3.a r3.b r3.c

def replV (r : Vec4) (j : ℕ) (v : ℚ) : Vec4 :=
  match j with
  | 0 => { r with a := v }
  | 1 => { r with b := v }
  | 2 => { r with c := v }
  | _ => { r with d := v }

def powSum (xs : List ℚ) (k : ℕ) : ℚ := (xs.map (fun x => x ^ k)).sum

def mixSum (pts : List (ℚ × ℚ)) (k : ℕ) : ℚ :=
  (pts.map (fun p => p.1 ^ k * p.2)).sum

/-- Coefficient `j` (of `x^j`) of the least-squares cubic through `pts`,
by Cramer's rule on the 4×4 normal equations. -/
def cubicCoeff (pts : List (ℚ × ℚ)) (j : ℕ) : ℚ :=
  let xs := pts.map Prod.fst
  let m0 := Vec4.mk (powSum xs 0) (powSum xs 1) (powSum xs 2) (powSum xs 3)
  let m1 := Vec4.mk (powSum xs 1) (powSum xs 2) (powSum xs 3) (powSum xs 4)
  let m2 := Vec4.mk (powSum xs 2) (powSum xs 3) (powSum xs 4) (powSum xs 5)
  let m3 := Vec4.mk (powSum xs 3) (powSum xs 4) (powSum xs 5) (powSum xs 6)
  det4 (replV m0 j (mixSum pts 0)) (replV m1 j (mixSum pts 1))
      (replV m2 j (mixSum pts 2)) (replV m3 j (mixSum pts 3)) /
    det4 m0 m1 m2 m3

/-- Value at `x` of the least-squares cubic through `pts`. -/
def cubicEval (pts : List (ℚ × ℚ)) (x : ℚ) : ℚ :=
  cubicCoeff pts 0 + cubicCoeff pts 1 * x + cubicCoeff pts 2 * x ^ 2 +
    cubicCoeff pts 3 * x ^ 3

/-- Modelled from the spec: `scipy.signal.savgol_filter(data, window, 3)` is
an external library call whose source is not part of this repository; the
spec describes it as "polynomial (degree-3) local-regression smoothing over
a caller-given odd window".  Each output point is the least-squares cubic
fitted to the window of points around it, evaluated at that point's index;
near the edges the window is clamped into range (scipy's default `'interp'`
mode fits the first/last whole window and evaluates the polynomial there).
The output has the same length and index as the input. -/
def savgol_filter (ys : List ℚ) (w : ℕ) : List ℚ :=
  (List.range ys.length).map (fun i =>
    let s := min (ys.length - w) (i - w / 2)
    let pts := (List.range w).map
      (fun j => (((s + j : ℕ) : ℚ), ys.getD (s + j) 0))
    cubicEval pts (i : ℚ))

/-- `AdvancedTimeSeriesAnalysis.apply_smoothing` with `method='savgol'`:
filter only when `len(data) > window`, otherwise return the data raw. -/
def apply_smoothing_savgol (data : List ℚ) (window : ℕ) : List ℚ :=
  if window < data.length then savgol_filter data window else data

/-- C7 (counterexample): with the 5-point series [0,0,0,0,1] and the odd
window 5 — a window that does not exceed the sequence length — the code
returns the raw series unchanged, but the degree-3 filtered series differs
from it (a cubic cannot interpolate these five points), so the claim's
"otherwise returns the degree-3 filtered sequence" fails at
window = length. -/
theorem savgol_equal_window_counterexample :
    apply_smoothing_savgol [0, 0, 0, 0, 1] 5 = [0, 0, 0, 0, 1] ∧
    savgol_filter [0, 0, 0, 0, 1] 5 ≠ [0, 0, 0, 0, 1] := by
  constructor
  · rfl
  · have hval : savgol_filter [0, 0, 0, 0, 1] 5 =
        [-(1 / 70), 2 / 35, -(3 / 35), 2 / 35, 69 / 70] := by
      norm_num [savgol_filter, cubicEval, cubicCoeff, det4, det3, replV,
        powSum, mixSum, List.range_succ]
    rw [hval]
    intro hcontra
    simp only [List.cons.injEq] at hcontra
    norm_num at hcontra

/-- C7 (amended): the savgol smoother returns the raw sequence unchanged
whenever the window is at least the sequence length (not only when it
strictly exceeds it), returns the degree-3 filtered sequence exactly when
the sequence is strictly longer than the window, and always preserves the
sequence length. -/
theorem savgol_branch_amended (data : List ℚ) (window : ℕ) :
    (data.length ≤ window → apply_smoothing_savgol data window = data) ∧
    (window < data.length →
      apply_smoothing_savgol data window = savgol_filter data window) ∧
    (apply_smoothing_savgol data window).length = data.length := by
  refine ⟨?_, ?_, ?_⟩
  · intro h
    simp [apply_smoothing_savgol, Nat.not_lt.mpr h]
  · intro h
    simp [apply_smoothing_savgol, h]
  · unfold apply_smoothing_savgol
    split
    · simp [savgol_filter]
    · rfl

/-- C7 (witness): a window of 7 on a 3-point series falls back to the raw
series, which also has the original length. -/
theorem savgol_branch_amended_witness :
    apply_smoothing_savgol [0, 0, 0] 7 = [0, 0, 0] ∧
    (apply_smoothing_savgol [0, 0, 0] 7).length = 3 :=
  ⟨(savgol_branch_amended [0, 0, 0] 7).1 (by decide),
   (savgol_branch_amended [0, 0, 0] 7).2.2⟩

end CapitalLaughs
